import Mathlib

set_option maxHeartbeats 1000000

/-!
Verification development for the financial-document analysis job pipeline.

The embedding below models three source files faithfully:
  - database.py: the three tables (analysis_requests, analysis_results,
    user_activity) with their columns and uniqueness constraints;
  - main.py: the submission endpoint analyze_document_async and the
    read endpoints get_job_result, get_analysis_history, get_statistics;
  - celery_worker.py: the worker task analyze_financial_document_task_celery,
    including its two commit points, its single generic exception handler,
    and the behaviour of a failed commit (the SQLAlchemy session becomes
    invalid, so the exception handler itself raises before reaching the
    file-cleanup lines).

Timestamps are modelled by a logical clock (a Nat counter in the state),
floats (processing_time, averages) by rationals, the filesystem by a
Boolean predicate on paths, and a database commit as an atomic update of
the committed state.  A Celery hard-time-limit expiry kills the worker
process mid-attempt, so it is modelled as truncation of the task at the
analyzer call: no handler runs after it.
-/

namespace FinAnalyzer

/-- Job status values stored in the analysis_requests table (database.py). -/
inductive Status
  | pending
  | processing
  | completed
  | failed
deriving DecidableEq

/-- Row of the analysis_requests table (database.py, class AnalysisRequest). -/
structure JobRow where
  job_id : String
  filename : String
  query : String
  status : Status
  created_at : Nat
  updated_at : Nat
  completed_at : Option Nat
  error_message : Option String
deriving DecidableEq

/-- Row of the analysis_results table (database.py, class AnalysisResult).
The job_id column carries a uniqueness constraint. -/
structure ResultRow where
  job_id : String
  filename : String
  query : String
  analysis : String
  processing_time : ℚ
  created_at : Nat
deriving DecidableEq

/-- Row of the user_activity table (database.py, class UserActivity). -/
structure ActivityRow where
  job_id : String
  user_ip : Option String
  file_size : Option Nat
  query_length : Nat
  success : Bool
  timestamp : Nat
deriving DecidableEq

/-- Committed database state plus the data directory of uploaded files and
a logical clock supplying datetime.utcnow timestamps. -/
structure Db where
  requests : List JobRow
  results : List ResultRow
  activities : List ActivityRow
  files : String → Bool
  clock : Nat

/-- The empty state: fresh database, empty data directory. -/
def emptyDb : Db :=
  { requests := [], results := [], activities := [], files := fun _ => false, clock := 0 }

/-- Lookup of a request row by job_id (query ... filter(job_id == ...).first()). -/
def findJob (d : Db) (j : String) : Option JobRow :=
  d.requests.find? (fun r => r.job_id == j)

/-- Status column of the request row with the given job_id, if any. -/
def statusOf (d : Db) (j : String) : Option Status :=
  (findJob d j).map (fun r => r.status)

/-- completed_at column of the request row with the given job_id, if any. -/
def caOf (d : Db) (j : String) : Option Nat :=
  match findJob d j with
  | none => none
  | some r => r.completed_at

/-- error_message column of the request row with the given job_id, if any. -/
def emOf (d : Db) (j : String) : Option String :=
  match findJob d j with
  | none => none
  | some r => r.error_message

/-- Lookup of a result row by job_id. -/
def findResult (d : Db) (j : String) : Option ResultRow :=
  d.results.find? (fun r => r.job_id == j)

/-- Whether a result row with the given job_id exists (the uniqueness
constraint of analysis_results.job_id rejects an insert when it does). -/
def hasResult (d : Db) (j : String) : Bool :=
  d.results.any (fun r => r.job_id == j)

/-- UPDATE of the (unique) request row with the given job_id. -/
def updateJob (d : Db) (j : String) (f : JobRow → JobRow) : Db :=
  { d with requests := d.requests.map (fun r => if r.job_id == j then f r else r) }

/-- INSERT into analysis_requests. -/
def addRequest (d : Db) (r : JobRow) : Db :=
  { d with requests := d.requests ++ [r] }

/-- INSERT into analysis_results. -/
def addResult (d : Db) (r : ResultRow) : Db :=
  { d with results := d.results ++ [r] }

/-- INSERT into user_activity. -/
def addActivity (d : Db) (a : ActivityRow) : Db :=
  { d with activities := d.activities ++ [a] }

/-- Writing the uploaded bytes to a path in the data directory. -/
def writeFile (d : Db) (p : String) : Db :=
  { d with files := fun s => if s == p then true else d.files s }

/-- os.remove guarded by os.path.exists (idempotent delete). -/
def eraseFile (d : Db) (p : String) : Db :=
  { d with files := fun s => if s == p then false else d.files s }

/-- Advance the logical clock past a datetime.utcnow / time.time draw. -/
def tick (d : Db) : Db :=
  { d with clock := d.clock + 1 }

/-- Python str.strip: drop whitespace from both ends, modelled over the
character list of the string. -/
def pyStrip (s : String) : String :=
  String.mk (((s.data.dropWhile Char.isWhitespace).reverse.dropWhile
    Char.isWhitespace).reverse)

/-- Path assigned to an upload (main.py: data/financial_document_id.pdf). -/
def file_path (j : String) : String :=
  "data/financial_document_" ++ j ++ ".pdf"

/-- Default analysis prompt substituted for a blank query (main.py). -/
def defaultQuery : String :=
  "Analyze this financial document for investment insights"

/-- Hard wall-clock limit in seconds (celery_config.py, task_time_limit). -/
def task_time_limit : Nat := 600

/-- Soft limit in seconds (celery_config.py, task_soft_time_limit). -/
def task_soft_time_limit : Nat := 540

/-- An HTTPException-style error: status code plus detail text. -/
structure Http where
  code : Nat
  detail : String
deriving DecidableEq

/-- Body returned by a successful POST /analyze/async. -/
structure SubmitResponse where
  status : String
  job_id : String
  message : String
  filename : String
  query : String
deriving DecidableEq

/-- Payload of the Celery dispatch message (.delay arguments). -/
structure Dispatch where
  job_id : String
  fpath : String
  query : String
  filename : String
  user_ip : Option String
  file_size : Nat
deriving DecidableEq

/-- Outcome of one submission attempt: HTTP response, committed state, and
the dispatch message if one was enqueued. -/
structure SubmitOutcome where
  response : Except Http SubmitResponse
  db : Db
  message : Option Dispatch

/-- Whether an Except value is a success. -/
def isOk {e a : Type} : Except e a → Bool
  | .ok _ => true
  | .error _ => false

instance instDecEqExcept {e a : Type} [DecidableEq e] [DecidableEq a] :
    DecidableEq (Except e a) := fun x y =>
  match x, y with
  | .ok x1, .ok y1 =>
    if h : x1 = y1 then isTrue (by rw [h])
    else isFalse (by intro hc; cases hc; exact h rfl)
  | .error x1, .error y1 =>
    if h : x1 = y1 then isTrue (by rw [h])
    else isFalse (by intro hc; cases hc; exact h rfl)
  | .ok _, .error _ => isFalse (by intro hc; cases hc)
  | .error _, .ok _ => isFalse (by intro hc; cases hc)

/-- Detail text of the generic 500 raised by the submission handler. -/
def errSubmitDetail : String := "Error submitting document for analysis"

/-- POST /analyze/async (main.py, analyze_document_async).  The steps in
source order: write the uploaded bytes to file_path job_id, take the length
of the content as file_size, replace an empty query by the default prompt,
insert the Job row with status pending and commit, then call .delay to
enqueue the dispatch message.  A commit failure (duplicate job_id) or a
.delay failure (broker unreachable, modelled by enqueueOk = false) lands in
the except handler, which removes the uploaded file and raises a 500; the
handler does not touch the Job row.  There is no emptiness check on the
uploaded content. -/
def submitAsync (d : Db) (job_id filename query content : String)
    (user_ip : Option String) (enqueueOk : Bool) : SubmitOutcome :=
  let fp := file_path job_id
  let file_size := content.length
  let d0 := writeFile d fp
  let q := if query == "" then defaultQuery else query
  if (findJob d0 job_id).isSome then
    { response := .error ⟨500, errSubmitDetail⟩
      db := eraseFile d0 fp
      message := none }
  else
    let row : JobRow :=
      { job_id := job_id, filename := filename, query := q, status := .pending
        created_at := d0.clock, updated_at := d0.clock
        completed_at := none, error_message := none }
    let d1 := tick (addRequest d0 row)
    if enqueueOk then
      { response := .ok
          { status := "submitted", job_id := job_id
            message := "Document submitted for analysis. Use /status/\x7bjob_id\x7d to check progress."
            filename := filename, query := q }
        db := d1
        message := some
          { job_id := job_id, fpath := fp, query := pyStrip q, filename := filename
            user_ip := user_ip, file_size := file_size } }
    else
      { response := .error ⟨500, errSubmitDetail⟩
        db := eraseFile d1 fp
        message := none }

/-- The exception classes the worker task can catch: an analyzer runtime
error, or billiard.SoftTimeLimitExceeded raised at the soft deadline.  Both
reach the same except-Exception handler, which stores only str(e). -/
inductive ExcKind
  | analyzerError
  | softTimeout
deriving DecidableEq

/-- How one analyzer invocation resolves inside the worker task. -/
inductive Outcome
  | ok (text : String)
  | exc (kind : ExcKind) (msg : String)
  | hardKill
deriving DecidableEq

/-- UPDATE status=processing, updated_at=t (first commit of the task). -/
def markProcessing (d : Db) (j : String) (t : Nat) : Db :=
  updateJob d j (fun r => { r with status := .processing, updated_at := t })

/-- UPDATE status=completed, completed_at=t, updated_at=t. -/
def markCompleted (d : Db) (j : String) (t : Nat) : Db :=
  updateJob d j (fun r =>
    { r with status := .completed, completed_at := some t, updated_at := t })

/-- UPDATE status=failed, error_message=m, updated_at=t, completed_at=t. -/
def markFailed (d : Db) (j : String) (m : String) (t : Nat) : Db :=
  updateJob d j (fun r =>
    { r with status := .failed, error_message := some m
             completed_at := some t, updated_at := t })

/-- The Celery worker task (celery_worker.py,
analyze_financial_document_task_celery).  Returns the final committed state
together with the list of committed states the task produced, in order.

Phase 1: fetch the request row; if present, set status=processing and
commit (first observable state).  Then the analyzer runs:

  - Outcome.hardKill: the hard time limit SIGKILLs the worker process at
    the analyzer call; no handler or cleanup runs, the task ends at the
    phase-1 state and the uploaded file survives.
  - Outcome.ok text: the task builds the AnalysisResult row, sets the
    request to completed, adds a success=true UserActivity row, and
    commits.  If a result row with this job_id already exists the commit
    raises IntegrityError (uniqueness of analysis_results.job_id): the
    transaction rolls back, and the except handler immediately raises on
    its first session use (the session is invalid until rollback), so
    nothing further is committed and the file is not deleted.  Otherwise
    the commit succeeds (second observable state) and the file is removed.
  - Outcome.exc kind msg: the except-Exception handler re-fetches the
    request row, sets status=failed with error_message = str(e) = msg and
    completed_at, adds a success=false UserActivity row, commits (second
    observable state), removes the file, and re-raises. -/
def workerExec (d : Db) (j fp q fn : String) (uip : Option String)
    (fs : Option Nat) (out : Outcome) : Db × List Db :=
  let t0 := d.clock
  let present := (findJob d j).isSome
  let d1 := if present then tick (markProcessing d j d.clock) else d
  let s1 : List Db := if present then [d1] else []
  match out with
  | .hardKill => (d1, s1)
  | .ok text =>
    if hasResult d1 j then
      (d1, s1)
    else
      let t2 := d1.clock
      let pt : ℚ := ((t2 - t0 : Nat) : ℚ)
      let rrow : ResultRow :=
        { job_id := j, filename := fn, query := q, analysis := text
          processing_time := pt, created_at := t2 }
      let arow : ActivityRow :=
        { job_id := j, user_ip := uip, file_size := fs
          query_length := q.length, success := true, timestamp := t2 }
      let d2 := eraseFile (tick (addActivity (addResult (markCompleted d1 j t2) rrow) arow)) fp
      (d2, s1 ++ [d2])
  | .exc _ msg =>
    let t2 := d1.clock
    let arow : ActivityRow :=
      { job_id := j, user_ip := uip, file_size := fs
        query_length := q.length, success := false, timestamp := t2 }
    let d2 := eraseFile (tick (addActivity (markFailed d1 j msg t2) arow)) fp
    (d2, s1 ++ [d2])

/-- One externally triggered event of the pipeline: a submission through
POST /analyze/async, or delivery of a dispatch message to a worker. -/
inductive Event
  | submit (j fn q c : String)
  | exec (j q fn : String) (out : Outcome)

/-- Effect of one event: final committed state plus the list of committed
states it produced. -/
def stepEvent (d : Db) : Event → Db × List Db
  | .submit j fn q c =>
    let o := submitAsync d j fn q c none true
    (o.db, [o.db])
  | .exec j q fn out => workerExec d j (file_path j) q fn none none out

/-- All committed states produced while running a trace of events. -/
def obsTrace (d : Db) : List Event → List Db
  | [] => []
  | e :: es => (stepEvent d e).2 ++ obsTrace (stepEvent d e).1 es

/-- Final committed state after a trace of events. -/
def runFrom (d : Db) : List Event → Db
  | [] => d
  | e :: es => runFrom (stepEvent d e).1 es

/-- All states observable over a trace started from the empty system. -/
def observations (tr : List Event) : List Db :=
  emptyDb :: obsTrace emptyDb tr

/-- Final state of a trace started from the empty system. -/
def runTrace (tr : List Event) : Db :=
  runFrom emptyDb tr

/-- Preconditions under which an event is a first (non-redelivered)
delivery: a submission uses a fresh job_id (uuid4), and a worker execution
is the first delivery of its dispatch message, hence finds its job still
pending. -/
def preOK (d : Db) : Event → Bool
  | .submit j _ _ _ => (findJob d j).isNone
  | .exec j _ _ _ =>
    match statusOf d j with
    | some .pending => true
    | _ => false

/-- A trace with fresh submissions and no message redelivery. -/
def goodFrom (d : Db) : List Event → Bool
  | [] => true
  | e :: es => preOK d e && goodFrom (stepEvent d e).1 es

/-- Rendering of a status value in HTTP detail strings. -/
def statusText : Status → String
  | .pending => "pending"
  | .processing => "processing"
  | .completed => "completed"
  | .failed => "failed"

/-- Body returned by GET /result when the job completed. -/
structure ResultResponse where
  status : String
  job_id : String
  filename : String
  query : String
  analysis : String
  processing_time : ℚ
  created_at : Nat
deriving DecidableEq

/-- GET /result (main.py, get_job_result).  Source order: query the result
row first; on a hit return it.  Otherwise query the request row: if it is
pending or processing raise 202, if it is failed raise 500 quoting the
stored error_message; every remaining path (no request row, or the request
row is completed without a result) falls through to the final 404. -/
def get_job_result (d : Db) (j : String) : Except Http ResultResponse :=
  match findResult d j with
  | some r =>
    .ok { status := "success", job_id := j, filename := r.filename
          query := r.query, analysis := r.analysis
          processing_time := r.processing_time, created_at := r.created_at }
  | none =>
    match findJob d j with
    | some req =>
      if req.status = .pending ∨ req.status = .processing then
        .error ⟨202, "Analysis not yet complete. Current status: " ++ statusText req.status⟩
      else if req.status = .failed then
        .error ⟨500, "Analysis failed: " ++ req.error_message.getD "None"⟩
      else
        .error ⟨404, "Result not found"⟩
    | none => .error ⟨404, "Result not found"⟩

/-- One entry of the GET /history response. -/
structure HistoryItem where
  job_id : String
  filename : String
  query : String
  processing_time : ℚ
  created_at : Nat
deriving DecidableEq

/-- Body returned by GET /history. -/
structure HistoryResponse where
  total : Nat
  limit : Int
  offset : Int
  results : List HistoryItem
deriving DecidableEq

/-- Insertion step of the ORDER BY created_at DESC sort. -/
def insertByCreatedDesc (r : ResultRow) : List ResultRow → List ResultRow
  | [] => [r]
  | x :: xs =>
    if x.created_at ≤ r.created_at then r :: x :: xs
    else x :: insertByCreatedDesc r xs

/-- ORDER BY created_at DESC over the analysis_results table. -/
def sortByCreatedDesc (l : List ResultRow) : List ResultRow :=
  l.foldr insertByCreatedDesc []

/-- Detail of the FastAPI request-validation rejection (422 response). -/
def validationDetail : String := "request validation error"

/-- GET /history (main.py, get_analysis_history).  The limit and offset
query parameters are declared Query(ge=1, le=100) and Query(ge=0): FastAPI
rejects an out-of-range value with a 422 validation error before the
handler runs.  In range, the handler returns the total row count and the
page obtained by ORDER BY created_at DESC, OFFSET offset, LIMIT limit. -/
def get_analysis_history (d : Db) (limit offset : Int) :
    Except Http HistoryResponse :=
  if limit < 1 ∨ 100 < limit ∨ offset < 0 then
    .error ⟨422, validationDetail⟩
  else
    let page := ((sortByCreatedDesc d.results).drop offset.toNat).take limit.toNat
    .ok { total := d.results.length, limit := limit, offset := offset
          results := page.map (fun r =>
            { job_id := r.job_id, filename := r.filename, query := r.query
              processing_time := r.processing_time, created_at := r.created_at }) }

/-- Body returned by GET /stats. -/
structure StatsResponse where
  total_analyses_completed : Nat
  total_requests : Nat
  pending : Nat
  processing : Nat
  completed : Nat
  failed : Nat
  average_processing_time_seconds : Option ℚ
  success_rate_percentage : ℚ
  celery_enabled : Bool
deriving DecidableEq

/-- Python round(x, 2), modelled on rationals (ties follow the round
function of the integers; no claim under proof depends on tie direction). -/
def round2 (x : ℚ) : ℚ :=
  ((round (x * 100) : ℤ) : ℚ) / 100

/-- GET /stats (main.py, get_statistics).  AVG over an empty
analysis_results table yields SQL NULL, and Python then evaluates
round(avg_time, 2) if avg_time else None, so both NULL and an average of
exactly zero render as null.  The success rate divides only when the
user_activity table is non-empty, else it is 0. -/
def get_statistics (d : Db) : StatsResponse :=
  let avg_time : Option ℚ :=
    if d.results.isEmpty then none
    else some ((d.results.map (fun r => r.processing_time)).sum / (d.results.length : ℚ))
  let total_activity := d.activities.length
  let successful_activity := (d.activities.filter (fun a => a.success)).length
  let success_rate : ℚ :=
    if 0 < total_activity then
      (successful_activity : ℚ) / (total_activity : ℚ) * 100
    else 0
  { total_analyses_completed := d.results.length
    total_requests := d.requests.length
    pending := d.requests.countP (fun r => r.status == .pending)
    processing := d.requests.countP (fun r => r.status == .processing)
    completed := d.requests.countP (fun r => r.status == .completed)
    failed := d.requests.countP (fun r => r.status == .failed)
    average_processing_time_seconds :=
      match avg_time with
      | none => none
      | some a => if a = 0 then none else some (round2 a)
    success_rate_percentage := round2 success_rate
    celery_enabled := true }

/-- The status transitions the specification allows between two
consecutive observable states: unchanged, row creation at pending, or one
edge of pending to processing to a terminal status. -/
def stepOK (a b : Option Status) : Prop :=
  b = a ∨
  (a = none ∧ b = some .pending) ∨
  (a = some .pending ∧ b = some .processing) ∨
  (a = some .processing ∧ b = some .completed) ∨
  (a = some .processing ∧ b = some .failed)

/-- Between two consecutive observable states, completed_at either keeps
its value or is being set for the first time. -/
def caStep (a b : Option Nat) : Prop :=
  b = a ∨ a = none

/-- Field invariant of one request row: completed_at is set iff the status
is terminal, and error_message is set iff the status is failed. -/
def rowInv (r : JobRow) : Prop :=
  ((r.completed_at ≠ none) ↔ (r.status = .completed ∨ r.status = .failed)) ∧
  ((r.error_message ≠ none) ↔ r.status = .failed)

/-- Field invariant of the specification over the whole request table. -/
def fieldInv (d : Db) : Prop :=
  ∀ r ∈ d.requests, rowInv r

/-- The Result-iff-completed invariant of the specification: every result
row belongs to a completed job, and every completed job has a result row. -/
def resultIffCompleted (d : Db) : Prop :=
  (∀ r ∈ d.results, statusOf d r.job_id = some .completed) ∧
  (∀ r ∈ d.requests, r.status = .completed → hasResult d r.job_id = true)

/-- Uniqueness constraints of database.py: job_id is unique in
analysis_requests and in analysis_results. -/
def uniqueIds (d : Db) : Prop :=
  (d.requests.map (fun r => r.job_id)).Nodup ∧
  (d.results.map (fun r => r.job_id)).Nodup

/-- Conjunction of the data-model invariants. -/
def dbInv (d : Db) : Prop :=
  uniqueIds d ∧ fieldInv d ∧ resultIffCompleted d

instance (a b : Option Status) : Decidable (stepOK a b) := by
  unfold stepOK; infer_instance

instance (a b : Option Nat) : Decidable (caStep a b) := by
  unfold caStep; infer_instance

instance (r : JobRow) : Decidable (rowInv r) := by
  unfold rowInv; infer_instance

instance (d : Db) : Decidable (fieldInv d) := by
  unfold fieldInv; infer_instance

instance (d : Db) : Decidable (resultIffCompleted d) := by
  unfold resultIffCompleted; infer_instance

instance (d : Db) : Decidable (uniqueIds d) := by
  unfold uniqueIds; infer_instance

instance (d : Db) : Decidable (dbInv d) := by
  unfold dbInv; infer_instance

/-- Statuses of one job along all states observable over a trace. -/
def statusesOf (tr : List Event) (j : String) : List (Option Status) :=
  (observations tr).map (fun d => statusOf d j)

/-- completed_at values of one job along all states observable over a trace. -/
def casOf (tr : List Event) (j : String) : List (Option Nat) :=
  (observations tr).map (fun d => caOf d j)

/-- A submission of job j followed by a successful execution and a
redelivered execution of the same dispatch message. -/
def redeliveryTrace : List Event :=
  [.submit "j" "f.pdf" "q" "c",
   .exec "j" "q" "f.pdf" (.ok "A"),
   .exec "j" "q" "f.pdf" (.ok "A")]

/-- A submission of job j followed by an execution aborted by the hard
time limit. -/
def hardKillTrace : List Event :=
  [.submit "j" "f.pdf" "q" "c",
   .exec "j" "q" "f.pdf" .hardKill]

/-! Named intermediate states of the worker task, used to state its
step equations. -/

/-- State committed by the first commit of the worker task (status set to
processing). -/
def execState1 (d : Db) (j : String) : Db :=
  tick (markProcessing d j d.clock)

/-- State committed by the final commit of a successful attempt, with the
uploaded file already removed. -/
def execOk2 (d : Db) (j q fn text fp : String) (uip : Option String)
    (fs : Option Nat) : Db :=
  let d1 := execState1 d j
  let t2 := d1.clock
  eraseFile (tick (addActivity (addResult (markCompleted d1 j t2)
    { job_id := j, filename := fn, query := q, analysis := text
      processing_time := ((t2 - d.clock : Nat) : ℚ), created_at := t2 })
    { job_id := j, user_ip := uip, file_size := fs, query_length := q.length
      success := true, timestamp := t2 })) fp

/-- State committed by the exception handler of a failed attempt, with the
uploaded file already removed. -/
def execExc2 (d : Db) (j q fp msg : String) (uip : Option String)
    (fs : Option Nat) : Db :=
  let d1 := execState1 d j
  let t2 := d1.clock
  eraseFile (tick (addActivity (markFailed d1 j msg t2)
    { job_id := j, user_ip := uip, file_size := fs, query_length := q.length
      success := false, timestamp := t2 })) fp

/-! The state committed by a fresh submission, and its facts. -/

/-- The request row inserted by analyze_document_async (status pending). -/
def subRow (d : Db) (j fn q : String) : JobRow :=
  { job_id := j, filename := fn, query := q, status := .pending
    created_at := d.clock, updated_at := d.clock
    completed_at := none, error_message := none }

/-- The committed state after a fresh submission. -/
def subState (d : Db) (j fn q : String) : Db :=
  tick (addRequest (writeFile d (file_path j)) (subRow d j fn q))

/-- A fresh submission of job j followed by one successful execution. -/
def okTrace : List Event :=
  [.submit "j" "f.pdf" "q" "c", .exec "j" "q" "f.pdf" (.ok "A")]

/-- Final state of okTrace: job j is completed and its result is stored. -/
def completedDb : Db := runTrace okTrace

/-- The i-th stored result of the pagination scenario. -/
def resRow (i : Nat) : ResultRow :=
  { job_id := "r" ++ toString i, filename := "f.pdf", query := "q"
    analysis := "a", processing_time := 1, created_at := i }

/-- A store holding 15 results with distinct creation times 1..15. -/
def db15 : Db :=
  { requests := [], results := (List.range 15).map (fun i => resRow (i + 1))
    activities := [], files := fun _ => false, clock := 16 }

/-- History entry rendered from resRow i. -/
def histItem (i : Nat) : HistoryItem :=
  { job_id := "r" ++ toString i, filename := "f.pdf", query := "q"
    processing_time := 1, created_at := i }

/-- The four cases of the GET /result contract: the stored result fields
when the job completed, 202 when pending or processing, 500 quoting the
stored error message when failed, 404 when the job never existed. -/
def resultContract (d : Db) (j : String) : Prop :=
  (statusOf d j = some .completed →
    ∃ r, findResult d j = some r ∧
      get_job_result d j = .ok
        { status := "success", job_id := j, filename := r.filename
          query := r.query, analysis := r.analysis
          processing_time := r.processing_time, created_at := r.created_at }) ∧
  ((statusOf d j = some .pending ∨ statusOf d j = some .processing) →
    ∃ e, get_job_result d j = .error e ∧ e.code = 202) ∧
  (statusOf d j = some .failed →
    get_job_result d j
      = .error ⟨500, "Analysis failed: " ++ (emOf d j).getD "None"⟩) ∧
  (statusOf d j = none → get_job_result d j = .error ⟨404, "Result not found"⟩)

/-! Basic lemmas about row lookup under the Db helpers. -/

theorem find?_map_update (l : List JobRow) (j j2 : String) (f : JobRow → JobRow)
    (hf : ∀ r, (f r).job_id = r.job_id) :
    (l.map (fun r => if r.job_id == j then f r else r)).find? (fun r => r.job_id == j2)
      = (l.find? (fun r => r.job_id == j2)).map
          (fun r => if r.job_id == j then f r else r) := by
  induction l with
  | nil => rfl
  | cons a l ih =>
    have hid : (if a.job_id == j then f a else a).job_id = a.job_id := by
      split
      · exact hf a
      · rfl
    rw [List.map_cons, List.find?_cons, List.find?_cons]
    show (match (if a.job_id == j then f a else a).job_id == j2 with
          | true => some (if a.job_id == j then f a else a)
          | false => (l.map (fun r : JobRow => if r.job_id == j then f r else r)).find?
              (fun r : JobRow => r.job_id == j2)) = _
    rw [hid]
    by_cases h : a.job_id == j2
    · rw [h]
      rfl
    · rw [Bool.not_eq_true] at h
      rw [h]
      exact ih

theorem ids_map_update (l : List JobRow) (j : String) (f : JobRow → JobRow)
    (hf : ∀ r, (f r).job_id = r.job_id) :
    (l.map (fun r => if r.job_id == j then f r else r)).map (fun r => r.job_id)
      = l.map (fun r => r.job_id) := by
  rw [List.map_map]
  apply List.map_congr_left
  intro a _
  show (if a.job_id == j then f a else a).job_id = a.job_id
  split
  · exact hf a
  · rfl

theorem find?_unique_of_nodup :
    ∀ (l : List JobRow), (l.map (fun r => r.job_id)).Nodup →
      ∀ {j : String} {r0 : JobRow},
        l.find? (fun r => r.job_id == j) = some r0 →
          ∀ r ∈ l, r.job_id = j → r = r0 := by
  intro l
  induction l with
  | nil =>
    intro _ j r0 h
    simp at h
  | cons a l ih =>
    intro hnd j r0 h r hr hrj
    simp only [List.map_cons, List.nodup_cons] at hnd
    rw [List.find?_cons] at h
    by_cases ha : a.job_id == j
    · rw [ha] at h
      cases h
      rcases List.mem_cons.mp hr with rfl | hr
      · rfl
      · exfalso
        apply hnd.1
        have haj : a.job_id = j := by simpa using ha
        rw [haj, ← hrj]
        exact List.mem_map_of_mem (fun r => r.job_id) hr
    · rw [Bool.not_eq_true] at ha
      rw [ha] at h
      rcases List.mem_cons.mp hr with rfl | hr
      · exact absurd hrj (by simpa using ha)
      · exact ih hnd.2 h r hr hrj

theorem findJob_unique (d : Db)
    (hnd : (d.requests.map (fun r => r.job_id)).Nodup)
    {j : String} {r0 : JobRow} (h : findJob d j = some r0) :
    ∀ r ∈ d.requests, r.job_id = j → r = r0 :=
  find?_unique_of_nodup d.requests hnd h

theorem findJob_beq {d : Db} {j : String} {r : JobRow}
    (h : findJob d j = some r) : (r.job_id == j) = true :=
  List.find?_some (p := fun r : JobRow => r.job_id == j) (l := d.requests) h

theorem findJob_id {d : Db} {j : String} {r : JobRow}
    (h : findJob d j = some r) : r.job_id = j := by
  simpa using findJob_beq h

@[simp] theorem findJob_addResult (d : Db) (r : ResultRow) (j : String) :
    findJob (addResult d r) j = findJob d j := rfl

@[simp] theorem findJob_addActivity (d : Db) (a : ActivityRow) (j : String) :
    findJob (addActivity d a) j = findJob d j := rfl

@[simp] theorem findJob_eraseFile (d : Db) (p j : String) :
    findJob (eraseFile d p) j = findJob d j := rfl

@[simp] theorem findJob_writeFile (d : Db) (p j : String) :
    findJob (writeFile d p) j = findJob d j := rfl

@[simp] theorem findJob_tick (d : Db) (j : String) :
    findJob (tick d) j = findJob d j := rfl

@[simp] theorem results_updateJob (d : Db) (j : String) (f : JobRow → JobRow) :
    (updateJob d j f).results = d.results := rfl

@[simp] theorem results_addActivity (d : Db) (a : ActivityRow) :
    (addActivity d a).results = d.results := rfl

@[simp] theorem results_addRequest (d : Db) (r : JobRow) :
    (addRequest d r).results = d.results := rfl

@[simp] theorem results_eraseFile (d : Db) (p : String) :
    (eraseFile d p).results = d.results := rfl

@[simp] theorem results_writeFile (d : Db) (p : String) :
    (writeFile d p).results = d.results := rfl

@[simp] theorem results_tick (d : Db) : (tick d).results = d.results := rfl

@[simp] theorem results_addResult (d : Db) (r : ResultRow) :
    (addResult d r).results = d.results ++ [r] := rfl

@[simp] theorem requests_addResult (d : Db) (r : ResultRow) :
    (addResult d r).requests = d.requests := rfl

@[simp] theorem requests_addActivity (d : Db) (a : ActivityRow) :
    (addActivity d a).requests = d.requests := rfl

@[simp] theorem requests_eraseFile (d : Db) (p : String) :
    (eraseFile d p).requests = d.requests := rfl

@[simp] theorem requests_writeFile (d : Db) (p : String) :
    (writeFile d p).requests = d.requests := rfl

@[simp] theorem requests_tick (d : Db) : (tick d).requests = d.requests := rfl

@[simp] theorem requests_addRequest (d : Db) (r : JobRow) :
    (addRequest d r).requests = d.requests ++ [r] := rfl

@[simp] theorem requests_updateJob (d : Db) (j : String) (f : JobRow → JobRow) :
    (updateJob d j f).requests
      = d.requests.map (fun r => if r.job_id == j then f r else r) := rfl

@[simp] theorem activities_addResult (d : Db) (r : ResultRow) :
    (addResult d r).activities = d.activities := rfl

@[simp] theorem activities_addRequest (d : Db) (r : JobRow) :
    (addRequest d r).activities = d.activities := rfl

@[simp] theorem activities_updateJob (d : Db) (j : String) (f : JobRow → JobRow) :
    (updateJob d j f).activities = d.activities := rfl

@[simp] theorem activities_eraseFile (d : Db) (p : String) :
    (eraseFile d p).activities = d.activities := rfl

@[simp] theorem activities_writeFile (d : Db) (p : String) :
    (writeFile d p).activities = d.activities := rfl

@[simp] theorem activities_tick (d : Db) : (tick d).activities = d.activities := rfl

@[simp] theorem activities_addActivity (d : Db) (a : ActivityRow) :
    (addActivity d a).activities = d.activities ++ [a] := rfl

theorem hasResult_eq (d : Db) (j : String) :
    hasResult d j = d.results.any (fun r => r.job_id == j) := rfl

@[simp] theorem hasResult_updateJob (d : Db) (j2 : String) (f : JobRow → JobRow)
    (j : String) : hasResult (updateJob d j2 f) j = hasResult d j := rfl

@[simp] theorem hasResult_addActivity (d : Db) (a : ActivityRow) (j : String) :
    hasResult (addActivity d a) j = hasResult d j := rfl

@[simp] theorem hasResult_addRequest (d : Db) (r : JobRow) (j : String) :
    hasResult (addRequest d r) j = hasResult d j := rfl

@[simp] theorem hasResult_eraseFile (d : Db) (p : String) (j : String) :
    hasResult (eraseFile d p) j = hasResult d j := rfl

@[simp] theorem hasResult_writeFile (d : Db) (p : String) (j : String) :
    hasResult (writeFile d p) j = hasResult d j := rfl

@[simp] theorem hasResult_tick (d : Db) (j : String) :
    hasResult (tick d) j = hasResult d j := rfl

theorem hasResult_addResult (d : Db) (r : ResultRow) (j : String) :
    hasResult (addResult d r) j = (hasResult d j || (r.job_id == j)) := by
  simp [hasResult, addResult, List.any_append]

theorem findJob_addRequest_eq (d : Db) (row : JobRow) (j : String) :
    findJob (addRequest d row) j
      = (findJob d j).or (if row.job_id == j then some row else none) := by
  unfold findJob
  rw [requests_addRequest, List.find?_append, List.find?_cons]
  by_cases h : row.job_id == j
  · rw [h, if_pos rfl]
  · rw [Bool.not_eq_true] at h
    rw [h]
    simp [h]

theorem findJob_updateJob_gen (d : Db) (j j2 : String) (f : JobRow → JobRow)
    (hf : ∀ r, (f r).job_id = r.job_id) :
    findJob (updateJob d j f) j2
      = (findJob d j2).map (fun r => if r.job_id == j then f r else r) :=
  find?_map_update d.requests j j2 f hf

theorem findJob_updateJob_self (d : Db) (j : String) (f : JobRow → JobRow)
    (hf : ∀ r, (f r).job_id = r.job_id) :
    findJob (updateJob d j f) j = (findJob d j).map f := by
  rw [findJob_updateJob_gen d j j f hf]
  cases h : findJob d j with
  | none => rfl
  | some r =>
    have hid : r.job_id = j := findJob_id h
    simp [hid]

theorem findJob_updateJob_other (d : Db) (j j2 : String) (f : JobRow → JobRow)
    (hf : ∀ r, (f r).job_id = r.job_id) (hne : j2 ≠ j) :
    findJob (updateJob d j f) j2 = findJob d j2 := by
  rw [findJob_updateJob_gen d j j2 f hf]
  cases h : findJob d j2 with
  | none => rfl
  | some r =>
    have hr : r.job_id = j2 := findJob_id h
    simp [hr, hne]

theorem mem_of_findJob (d : Db) {j : String} {r : JobRow}
    (h : findJob d j = some r) : r ∈ d.requests :=
  List.mem_of_find?_eq_some h

theorem findJob_none_iff (d : Db) (j : String) :
    findJob d j = none ↔ ∀ r ∈ d.requests, r.job_id ≠ j := by
  unfold findJob
  rw [List.find?_eq_none]
  constructor
  · intro h r hr
    have := h r hr
    simpa using this
  · intro h r hr
    simpa using h r hr

theorem hasResult_false_iff (d : Db) (j : String) :
    hasResult d j = false ↔ ∀ r ∈ d.results, r.job_id ≠ j := by
  unfold hasResult
  rw [← Bool.not_eq_true, List.any_eq_true]
  constructor
  · intro h r hr
    intro hrj
    exact h ⟨r, hr, by simpa using hrj⟩
  · intro h hex
    obtain ⟨r, hr, hrj⟩ := hex
    exact h r hr (by simpa using hrj)

/-! Facts available about a job that a well-formed state holds as pending
or completed. -/

theorem pending_facts (d : Db) (j : String) (hinv : dbInv d)
    (hp : statusOf d j = some .pending) :
    ∃ r0, findJob d j = some r0 ∧ r0.job_id = j ∧ r0.status = .pending ∧
      r0.completed_at = none ∧ r0.error_message = none ∧
      hasResult d j = false := by
  obtain ⟨hU, hF, hR⟩ := hinv
  unfold statusOf at hp
  cases h : findJob d j with
  | none => rw [h] at hp; simp at hp
  | some r0 =>
    rw [h] at hp
    have hst : r0.status = .pending := by simpa using hp
    have hmem := mem_of_findJob d h
    have hfi := hF r0 hmem
    refine ⟨r0, rfl, findJob_id h, hst, ?_, ?_, ?_⟩
    · by_contra hca
      have hterm := hfi.1.mp hca
      rw [hst] at hterm
      rcases hterm with h1 | h1 <;> cases h1
    · by_contra hem
      have hfail := hfi.2.mp hem
      rw [hst] at hfail
      cases hfail
    · rw [hasResult_false_iff]
      intro r hr hrj
      have hco := hR.1 r hr
      rw [hrj] at hco
      unfold statusOf at hco
      rw [h] at hco
      have hbad : r0.status = .completed := by simpa using hco
      rw [hst] at hbad
      cases hbad

theorem completed_facts (d : Db) (j : String) (hinv : dbInv d)
    (hc : statusOf d j = some .completed) :
    ∃ r0, findJob d j = some r0 ∧ r0.job_id = j ∧ r0.status = .completed ∧
      hasResult d j = true := by
  obtain ⟨hU, hF, hR⟩ := hinv
  unfold statusOf at hc
  cases h : findJob d j with
  | none => rw [h] at hc; simp at hc
  | some r0 =>
    rw [h] at hc
    have hst : r0.status = .completed := by simpa using hc
    have hmem := mem_of_findJob d h
    refine ⟨r0, rfl, findJob_id h, hst, ?_⟩
    have := hR.2 r0 hmem hst
    rw [findJob_id h] at this
    exact this

theorem workerExec_hardKill_eq (d : Db) (j fp q fn : String)
    (uip : Option String) (fs : Option Nat) {r0 : JobRow}
    (hpres : findJob d j = some r0) :
    workerExec d j fp q fn uip fs .hardKill
      = (execState1 d j, [execState1 d j]) := by
  unfold workerExec execState1
  rw [hpres]
  simp

theorem workerExec_ok_eq (d : Db) (j fp q fn text : String)
    (uip : Option String) (fs : Option Nat) {r0 : JobRow}
    (hpres : findJob d j = some r0) (hnores : hasResult d j = false) :
    workerExec d j fp q fn uip fs (.ok text)
      = (execOk2 d j q fn text fp uip fs,
         [execState1 d j, execOk2 d j q fn text fp uip fs]) := by
  unfold workerExec execOk2 execState1
  rw [hpres]
  have h1 : hasResult (tick (markProcessing d j d.clock)) j = false := by
    simpa using hnores
  simp [h1]

theorem workerExec_ok_dup_eq (d : Db) (j fp q fn text : String)
    (uip : Option String) (fs : Option Nat) {r0 : JobRow}
    (hpres : findJob d j = some r0) (hres : hasResult d j = true) :
    workerExec d j fp q fn uip fs (.ok text)
      = (execState1 d j, [execState1 d j]) := by
  unfold workerExec execState1
  rw [hpres]
  have h1 : hasResult (tick (markProcessing d j d.clock)) j = true := by
    simpa using hres
  simp [h1]

theorem workerExec_exc_eq (d : Db) (j fp q fn msg : String) (k : ExcKind)
    (uip : Option String) (fs : Option Nat) {r0 : JobRow}
    (hpres : findJob d j = some r0) :
    workerExec d j fp q fn uip fs (.exc k msg)
      = (execExc2 d j q fp msg uip fs,
         [execState1 d j, execExc2 d j q fp msg uip fs]) := by
  unfold workerExec execExc2 execState1
  rw [hpres]
  simp

/-! Row-level facts about the named intermediate states. -/

theorem fieldInv_updateJob (d : Db) (j : String) (f : JobRow → JobRow)
    (hnd : (d.requests.map (fun r => r.job_id)).Nodup)
    {r0 : JobRow} (hpres : findJob d j = some r0)
    (hF : fieldInv d) (hfr : rowInv (f r0)) :
    fieldInv (updateJob d j f) := by
  intro r2 hr2
  rw [requests_updateJob] at hr2
  obtain ⟨r, hr, hre⟩ := List.mem_map.mp hr2
  by_cases h : (r.job_id == j) = true
  · have hrr0 : r = r0 := findJob_unique d hnd hpres r hr (by simpa using h)
    rw [← hre, if_pos h, hrr0]
    exact hfr
  · rw [← hre, if_neg h]
    exact hF r hr

theorem execState1_findJob_self (d : Db) (j : String) {r0 : JobRow}
    (hpres : findJob d j = some r0) :
    findJob (execState1 d j) j
      = some { r0 with status := .processing, updated_at := d.clock } := by
  unfold execState1 markProcessing
  rw [findJob_tick, findJob_updateJob_self d j
    (fun r => { r with status := .processing, updated_at := d.clock })
    (fun r => rfl), hpres]
  rfl

theorem execState1_findJob_other (d : Db) (j j2 : String) (hne : j2 ≠ j) :
    findJob (execState1 d j) j2 = findJob d j2 := by
  unfold execState1 markProcessing
  rw [findJob_tick, findJob_updateJob_other d j j2
    (fun r => { r with status := .processing, updated_at := d.clock })
    (fun r => rfl) hne]

@[simp] theorem execState1_results (d : Db) (j : String) :
    (execState1 d j).results = d.results := rfl

@[simp] theorem execState1_activities (d : Db) (j : String) :
    (execState1 d j).activities = d.activities := rfl

theorem execState1_statusOf_self (d : Db) (j : String) {r0 : JobRow}
    (hpres : findJob d j = some r0) :
    statusOf (execState1 d j) j = some .processing := by
  unfold statusOf
  rw [execState1_findJob_self d j hpres]
  rfl

theorem execState1_caOf_self (d : Db) (j : String) {r0 : JobRow}
    (hpres : findJob d j = some r0) (hca0 : r0.completed_at = none) :
    caOf (execState1 d j) j = none := by
  unfold caOf
  rw [execState1_findJob_self d j hpres]
  exact hca0

theorem execState1_emOf_self (d : Db) (j : String) {r0 : JobRow}
    (hpres : findJob d j = some r0) (hem0 : r0.error_message = none) :
    emOf (execState1 d j) j = none := by
  unfold emOf
  rw [execState1_findJob_self d j hpres]
  exact hem0

theorem execState1_dbInv (d : Db) (j : String) (hinv : dbInv d)
    (hp : statusOf d j = some .pending) : dbInv (execState1 d j) := by
  obtain ⟨r0, hpres, hid0, hst0, hca0, hem0, hnores⟩ := pending_facts d j hinv hp
  obtain ⟨hU, hF, hR⟩ := hinv
  have hids : ((execState1 d j).requests.map (fun r => r.job_id))
      = d.requests.map (fun r => r.job_id) := by
    show ((markProcessing d j d.clock).requests.map (fun r => r.job_id)) = _
    unfold markProcessing
    rw [requests_updateJob]
    exact ids_map_update d.requests j _ (fun r => rfl)
  refine ⟨⟨?_, ?_⟩, ?_, ?_, ?_⟩
  · rw [hids]
    exact hU.1
  · exact hU.2
  · show fieldInv (tick (markProcessing d j d.clock))
    have : fieldInv (markProcessing d j d.clock) := by
      unfold markProcessing
      apply fieldInv_updateJob d j _ hU.1 hpres hF
      constructor
      · show ((({ r0 with status := Status.processing, updated_at := d.clock } : JobRow).completed_at ≠ none) ↔ _)
        simp [hca0]
      · simp [hem0]
    exact this
  · intro r hr
    have hrne : r.job_id ≠ j := by
      rw [hasResult_false_iff] at hnores
      exact hnores r hr
    unfold statusOf
    rw [execState1_findJob_other d j r.job_id hrne]
    exact hR.1 r hr
  · intro r2 hr2
    have hr2m : r2 ∈ (markProcessing d j d.clock).requests := hr2
    unfold markProcessing at hr2m
    rw [requests_updateJob] at hr2m
    obtain ⟨r, hr, hre⟩ := List.mem_map.mp hr2m
    intro hcomp
    by_cases h : (r.job_id == j) = true
    · exfalso
      have hrr0 : r = r0 := findJob_unique d hU.1 hpres r hr (by simpa using h)
      rw [← hre, if_pos h, hrr0] at hcomp
      cases hcomp
    · rw [← hre, if_neg h] at hcomp ⊢
      exact hR.2 r hr hcomp

theorem execOk2_findJob_self (d : Db) (j q fn text fp : String)
    (uip : Option String) (fs : Option Nat) {r0 : JobRow}
    (hpres : findJob d j = some r0) :
    findJob (execOk2 d j q fn text fp uip fs) j
      = some { r0 with
          status := .completed
          completed_at := some (d.clock + 1)
          updated_at := d.clock + 1 } := by
  unfold execOk2 markCompleted
  rw [findJob_eraseFile, findJob_tick, findJob_addActivity, findJob_addResult,
    findJob_updateJob_self (execState1 d j) j
      (fun r => { r with
          status := .completed
          completed_at := some (execState1 d j).clock
          updated_at := (execState1 d j).clock })
      (fun r => rfl),
    execState1_findJob_self d j hpres]
  rfl

theorem execOk2_findJob_other (d : Db) (j q fn text fp : String)
    (uip : Option String) (fs : Option Nat) (j2 : String) (hne : j2 ≠ j) :
    findJob (execOk2 d j q fn text fp uip fs) j2 = findJob d j2 := by
  unfold execOk2 markCompleted
  rw [findJob_eraseFile, findJob_tick, findJob_addActivity, findJob_addResult,
    findJob_updateJob_other (execState1 d j) j j2
      (fun r => { r with
          status := .completed
          completed_at := some (execState1 d j).clock
          updated_at := (execState1 d j).clock })
      (fun r => rfl) hne,
    execState1_findJob_other d j j2 hne]

theorem execOk2_statusOf_self (d : Db) (j q fn text fp : String)
    (uip : Option String) (fs : Option Nat) {r0 : JobRow}
    (hpres : findJob d j = some r0) :
    statusOf (execOk2 d j q fn text fp uip fs) j = some .completed := by
  unfold statusOf
  rw [execOk2_findJob_self d j q fn text fp uip fs hpres]
  rfl

theorem execOk2_caOf_self (d : Db) (j q fn text fp : String)
    (uip : Option String) (fs : Option Nat) {r0 : JobRow}
    (hpres : findJob d j = some r0) :
    caOf (execOk2 d j q fn text fp uip fs) j = some (d.clock + 1) := by
  unfold caOf
  rw [execOk2_findJob_self d j q fn text fp uip fs hpres]

theorem execOk2_emOf_self (d : Db) (j q fn text fp : String)
    (uip : Option String) (fs : Option Nat) {r0 : JobRow}
    (hpres : findJob d j = some r0) (hem0 : r0.error_message = none) :
    emOf (execOk2 d j q fn text fp uip fs) j = none := by
  unfold emOf
  rw [execOk2_findJob_self d j q fn text fp uip fs hpres]
  exact hem0

theorem execOk2_results (d : Db) (j q fn text fp : String)
    (uip : Option String) (fs : Option Nat) :
    (execOk2 d j q fn text fp uip fs).results
      = d.results ++
        [{ job_id := j, filename := fn, query := q, analysis := text
           processing_time := (((d.clock + 1) - d.clock : Nat) : ℚ)
           created_at := d.clock + 1 }] := rfl

theorem execOk2_activities (d : Db) (j q fn text fp : String)
    (uip : Option String) (fs : Option Nat) :
    (execOk2 d j q fn text fp uip fs).activities
      = d.activities ++
        [{ job_id := j, user_ip := uip, file_size := fs
           query_length := q.length, success := true
           timestamp := d.clock + 1 }] := rfl

theorem execExc2_findJob_self (d : Db) (j q fp msg : String)
    (uip : Option String) (fs : Option Nat) {r0 : JobRow}
    (hpres : findJob d j = some r0) :
    findJob (execExc2 d j q fp msg uip fs) j
      = some { r0 with
          status := .failed
          error_message := some msg
          completed_at := some (d.clock + 1)
          updated_at := d.clock + 1 } := by
  unfold execExc2 markFailed
  rw [findJob_eraseFile, findJob_tick, findJob_addActivity,
    findJob_updateJob_self (execState1 d j) j
      (fun r => { r with
          status := .failed
          error_message := some msg
          completed_at := some (execState1 d j).clock
          updated_at := (execState1 d j).clock })
      (fun r => rfl),
    execState1_findJob_self d j hpres]
  rfl

theorem execExc2_findJob_other (d : Db) (j q fp msg : String)
    (uip : Option String) (fs : Option Nat) (j2 : String) (hne : j2 ≠ j) :
    findJob (execExc2 d j q fp msg uip fs) j2 = findJob d j2 := by
  unfold execExc2 markFailed
  rw [findJob_eraseFile, findJob_tick, findJob_addActivity,
    findJob_updateJob_other (execState1 d j) j j2
      (fun r => { r with
          status := .failed
          error_message := some msg
          completed_at := some (execState1 d j).clock
          updated_at := (execState1 d j).clock })
      (fun r => rfl) hne,
    execState1_findJob_other d j j2 hne]

theorem execExc2_statusOf_self (d : Db) (j q fp msg : String)
    (uip : Option String) (fs : Option Nat) {r0 : JobRow}
    (hpres : findJob d j = some r0) :
    statusOf (execExc2 d j q fp msg uip fs) j = some .failed := by
  unfold statusOf
  rw [execExc2_findJob_self d j q fp msg uip fs hpres]
  rfl

theorem execExc2_caOf_self (d : Db) (j q fp msg : String)
    (uip : Option String) (fs : Option Nat) {r0 : JobRow}
    (hpres : findJob d j = some r0) :
    caOf (execExc2 d j q fp msg uip fs) j = some (d.clock + 1) := by
  unfold caOf
  rw [execExc2_findJob_self d j q fp msg uip fs hpres]

theorem execExc2_emOf_self (d : Db) (j q fp msg : String)
    (uip : Option String) (fs : Option Nat) {r0 : JobRow}
    (hpres : findJob d j = some r0) :
    emOf (execExc2 d j q fp msg uip fs) j = some msg := by
  unfold emOf
  rw [execExc2_findJob_self d j q fp msg uip fs hpres]

theorem execExc2_results (d : Db) (j q fp msg : String)
    (uip : Option String) (fs : Option Nat) :
    (execExc2 d j q fp msg uip fs).results = d.results := rfl

theorem execExc2_activities (d : Db) (j q fp msg : String)
    (uip : Option String) (fs : Option Nat) :
    (execExc2 d j q fp msg uip fs).activities
      = d.activities ++
        [{ job_id := j, user_ip := uip, file_size := fs
           query_length := q.length, success := false
           timestamp := d.clock + 1 }] := rfl

@[simp] theorem clock_writeFile (d : Db) (p : String) :
    (writeFile d p).clock = d.clock := rfl

@[simp] theorem clock_eraseFile (d : Db) (p : String) :
    (eraseFile d p).clock = d.clock := rfl

@[simp] theorem clock_addRequest (d : Db) (r : JobRow) :
    (addRequest d r).clock = d.clock := rfl

@[simp] theorem clock_addResult (d : Db) (r : ResultRow) :
    (addResult d r).clock = d.clock := rfl

@[simp] theorem clock_addActivity (d : Db) (a : ActivityRow) :
    (addActivity d a).clock = d.clock := rfl

@[simp] theorem clock_updateJob (d : Db) (j : String) (f : JobRow → JobRow) :
    (updateJob d j f).clock = d.clock := rfl

@[simp] theorem clock_tick (d : Db) : (tick d).clock = d.clock + 1 := rfl

/-! Invariant preservation by the final worker states. -/

theorem execOk2_dbInv (d : Db) (j q fn text fp : String)
    (uip : Option String) (fs : Option Nat) (hinv : dbInv d)
    (hp : statusOf d j = some .pending) :
    dbInv (execOk2 d j q fn text fp uip fs) := by
  obtain ⟨r0, hpres, hid0, hst0, hca0, hem0, hnores⟩ := pending_facts d j hinv hp
  have hinv1 : dbInv (execState1 d j) := execState1_dbInv d j hinv hp
  obtain ⟨hU1, hF1, hR1⟩ := hinv1
  obtain ⟨hU, hF, hR⟩ := hinv
  have hpres1 : findJob (execState1 d j) j
      = some { r0 with status := .processing, updated_at := d.clock } :=
    execState1_findJob_self d j hpres
  have hreq : (execOk2 d j q fn text fp uip fs).requests
      = (execState1 d j).requests.map
          (fun r => if r.job_id == j then
            { r with
              status := .completed
              completed_at := some (execState1 d j).clock
              updated_at := (execState1 d j).clock } else r) := rfl
  refine ⟨⟨?_, ?_⟩, ?_, ?_, ?_⟩
  · rw [hreq, ids_map_update (execState1 d j).requests j
      (fun r => { r with
        status := .completed
        completed_at := some (execState1 d j).clock
        updated_at := (execState1 d j).clock }) (fun r => rfl)]
    exact hU1.1
  · rw [execOk2_results, List.map_append]
    rw [hasResult_false_iff] at hnores
    simp only [List.map_cons, List.map_nil]
    rw [List.nodup_append]
    refine ⟨hU.2, List.nodup_singleton _, ?_⟩
    intro x hx hx2
    simp only [List.mem_singleton] at hx2
    obtain ⟨r, hr, hrx⟩ := List.mem_map.mp hx
    subst hx2
    exact hnores r hr (by rw [hrx])
  · have hfi : fieldInv (markCompleted (execState1 d j) j (execState1 d j).clock) := by
      unfold markCompleted
      apply fieldInv_updateJob (execState1 d j) j _ hU1.1 hpres1 hF1
      constructor
      · simp
      · simp [hem0]
    exact hfi
  · intro r hr
    rw [execOk2_results, List.mem_append] at hr
    unfold statusOf
    rcases hr with hr | hr
    · have hrne : r.job_id ≠ j := by
        rw [hasResult_false_iff] at hnores
        exact hnores r hr
      rw [execOk2_findJob_other d j q fn text fp uip fs r.job_id hrne]
      exact hR.1 r hr
    · simp only [List.mem_singleton] at hr
      subst hr
      show Option.map (fun r => r.status)
        (findJob (execOk2 d j q fn text fp uip fs) j) = some .completed
      rw [execOk2_findJob_self d j q fn text fp uip fs hpres]
      rfl
  · intro r2 hr2
    rw [hreq] at hr2
    obtain ⟨r, hr, hre⟩ := List.mem_map.mp hr2
    intro hcomp
    have hres2 : hasResult (execOk2 d j q fn text fp uip fs) j = true := by
      show (execOk2 d j q fn text fp uip fs).results.any (fun r => r.job_id == j) = true
      rw [execOk2_results, List.any_append]
      simp
    by_cases h : (r.job_id == j) = true
    · have hid2 : r2.job_id = j := by
        rw [← hre, if_pos h]
        simpa using h
      rw [hid2]
      exact hres2
    · rw [← hre, if_neg h] at hcomp ⊢
      have hd : hasResult d r.job_id = true := hR1.2 r hr hcomp
      show (execOk2 d j q fn text fp uip fs).results.any
        (fun x => x.job_id == r.job_id) = true
      rw [execOk2_results, List.any_append]
      unfold hasResult at hd
      rw [hd]
      rfl

theorem execExc2_dbInv (d : Db) (j q fp msg : String)
    (uip : Option String) (fs : Option Nat) (hinv : dbInv d)
    (hp : statusOf d j = some .pending) :
    dbInv (execExc2 d j q fp msg uip fs) := by
  obtain ⟨r0, hpres, hid0, hst0, hca0, hem0, hnores⟩ := pending_facts d j hinv hp
  have hinv1 : dbInv (execState1 d j) := execState1_dbInv d j hinv hp
  obtain ⟨hU1, hF1, hR1⟩ := hinv1
  obtain ⟨hU, hF, hR⟩ := hinv
  have hpres1 : findJob (execState1 d j) j
      = some { r0 with status := .processing, updated_at := d.clock } :=
    execState1_findJob_self d j hpres
  have hreq : (execExc2 d j q fp msg uip fs).requests
      = (execState1 d j).requests.map
          (fun r => if r.job_id == j then
            { r with
              status := .failed
              error_message := some msg
              completed_at := some (execState1 d j).clock
              updated_at := (execState1 d j).clock } else r) := rfl
  refine ⟨⟨?_, ?_⟩, ?_, ?_, ?_⟩
  · rw [hreq, ids_map_update (execState1 d j).requests j
      (fun r => { r with
        status := .failed
        error_message := some msg
        completed_at := some (execState1 d j).clock
        updated_at := (execState1 d j).clock }) (fun r => rfl)]
    exact hU1.1
  · exact hU.2
  · have hfi : fieldInv (markFailed (execState1 d j) j msg (execState1 d j).clock) := by
      unfold markFailed
      apply fieldInv_updateJob (execState1 d j) j _ hU1.1 hpres1 hF1
      constructor
      · simp
      · simp
    exact hfi
  · intro r hr
    have hrd : r ∈ d.results := hr
    have hrne : r.job_id ≠ j := by
      rw [hasResult_false_iff] at hnores
      exact hnores r hrd
    unfold statusOf
    rw [execExc2_findJob_other d j q fp msg uip fs r.job_id hrne]
    exact hR.1 r hrd
  · intro r2 hr2
    rw [hreq] at hr2
    obtain ⟨r, hr, hre⟩ := List.mem_map.mp hr2
    intro hcomp
    by_cases h : (r.job_id == j) = true
    · exfalso
      rw [← hre, if_pos h] at hcomp
      cases hcomp
    · rw [← hre, if_neg h] at hcomp ⊢
      exact hR1.2 r hr hcomp

theorem submitAsync_db_eq (d : Db) (j fn q c : String) (uip : Option String)
    (hfresh : findJob d j = none) :
    (submitAsync d j fn q c uip true).db
      = subState d j fn (if q == "" then defaultQuery else q) := by
  unfold submitAsync subState subRow
  simp [hfresh]

theorem subState_findJob_self (d : Db) (j fn q : String)
    (hfresh : findJob d j = none) :
    findJob (subState d j fn q) j = some (subRow d j fn q) := by
  unfold subState
  rw [findJob_tick, findJob_addRequest_eq, findJob_writeFile, hfresh]
  have : ((subRow d j fn q).job_id == j) = true := by
    simp [subRow]
  rw [if_pos this]
  rfl

theorem subState_findJob_other (d : Db) (j fn q j2 : String) (hne : j2 ≠ j) :
    findJob (subState d j fn q) j2 = findJob d j2 := by
  unfold subState
  rw [findJob_tick, findJob_addRequest_eq, findJob_writeFile]
  have hb : ((subRow d j fn q).job_id == j2) = false := by
    show (j == j2) = false
    simp
    exact fun h => absurd h.symm hne
  rw [hb]
  simp [Option.or_none]

@[simp] theorem subState_results (d : Db) (j fn q : String) :
    (subState d j fn q).results = d.results := rfl

@[simp] theorem subState_activities (d : Db) (j fn q : String) :
    (subState d j fn q).activities = d.activities := rfl

theorem subState_dbInv (d : Db) (j fn q : String) (hinv : dbInv d)
    (hfresh : findJob d j = none) : dbInv (subState d j fn q) := by
  obtain ⟨hU, hF, hR⟩ := hinv
  rw [findJob_none_iff] at hfresh
  have hreq : (subState d j fn q).requests = d.requests ++ [subRow d j fn q] := rfl
  refine ⟨⟨?_, ?_⟩, ?_, ?_, ?_⟩
  · rw [hreq, List.map_append]
    simp only [List.map_cons, List.map_nil]
    rw [List.nodup_append]
    refine ⟨hU.1, List.nodup_singleton _, ?_⟩
    intro x hx hx2
    simp only [List.mem_singleton] at hx2
    obtain ⟨r, hr, hrx⟩ := List.mem_map.mp hx
    subst hx2
    apply hfresh r hr
    rw [hrx]
  · exact hU.2
  · intro r hr
    rw [hreq, List.mem_append] at hr
    rcases hr with hr | hr
    · exact hF r hr
    · simp only [List.mem_singleton] at hr
      subst hr
      constructor
      · simp [subRow]
      · simp [subRow]
  · intro r hr
    have hrd : r ∈ d.results := hr
    have hco := hR.1 r hrd
    have hrne : r.job_id ≠ j := by
      intro hrj
      unfold statusOf at hco
      cases hjr : findJob d r.job_id with
      | none => rw [hjr] at hco; simp at hco
      | some x =>
        apply hfresh x (mem_of_findJob d hjr)
        rw [findJob_id hjr, hrj]
    unfold statusOf
    rw [subState_findJob_other d j fn q r.job_id hrne]
    exact hco
  · intro r2 hr2
    rw [hreq, List.mem_append] at hr2
    intro hcomp
    rcases hr2 with hr2 | hr2
    · exact hR.2 r2 hr2 hcomp
    · simp only [List.mem_singleton] at hr2
      subst hr2
      cases hcomp

theorem stepEvent_submit_eq (d : Db) (j fn q c : String)
    (hfresh : findJob d j = none) :
    stepEvent d (.submit j fn q c)
      = (subState d j fn (if q == "" then defaultQuery else q),
         [subState d j fn (if q == "" then defaultQuery else q)]) := by
  show ((submitAsync d j fn q c none true).db, [(submitAsync d j fn q c none true).db]) = _
  rw [submitAsync_db_eq d j fn q c none hfresh]

theorem statusOf_congr {d1 d2 : Db} {j : String}
    (h : findJob d1 j = findJob d2 j) : statusOf d1 j = statusOf d2 j := by
  unfold statusOf
  rw [h]

theorem caOf_congr {d1 d2 : Db} {j : String}
    (h : findJob d1 j = findJob d2 j) : caOf d1 j = caOf d2 j := by
  unfold caOf
  rw [h]

theorem statusOf_none {d : Db} {j : String} (h : findJob d j = none) :
    statusOf d j = none := by
  unfold statusOf
  rw [h]
  rfl

theorem caOf_none {d : Db} {j : String} (h : findJob d j = none) :
    caOf d j = none := by
  unfold caOf
  rw [h]

theorem caOf_eq {d : Db} {j : String} {r : JobRow}
    (h : findJob d j = some r) : caOf d j = r.completed_at := by
  unfold caOf
  rw [h]

theorem subState_statusOf_self (d : Db) (j fn q : String)
    (hfresh : findJob d j = none) :
    statusOf (subState d j fn q) j = some .pending := by
  unfold statusOf
  rw [subState_findJob_self d j fn q hfresh]
  rfl

theorem subState_caOf_self (d : Db) (j fn q : String)
    (hfresh : findJob d j = none) :
    caOf (subState d j fn q) j = none := by
  unfold caOf
  rw [subState_findJob_self d j fn q hfresh]
  rfl

theorem stepEvent_exec_eq (d : Db) (j q fn : String) (out : Outcome) :
    stepEvent d (.exec j q fn out)
      = workerExec d j (file_path j) q fn none none out := rfl

theorem obsTrace_cons (d : Db) (e : Event) (es : List Event) :
    obsTrace d (e :: es)
      = (stepEvent d e).2 ++ obsTrace (stepEvent d e).1 es := rfl

theorem goodFrom_cons (d : Db) (e : Event) (es : List Event) :
    goodFrom d (e :: es)
      = (preOK d e && goodFrom (stepEvent d e).1 es) := rfl

theorem preOK_exec {d : Db} {j q fn : String} {out : Outcome}
    (h : preOK d (.exec j q fn out) = true) :
    statusOf d j = some .pending := by
  have h2 : (match statusOf d j with
      | some Status.pending => true
      | _ => false) = true := h
  cases hst : statusOf d j with
  | none => rw [hst] at h2; simp at h2
  | some s =>
    cases s with
    | pending => rfl
    | processing => rw [hst] at h2; simp at h2
    | completed => rw [hst] at h2; simp at h2
    | failed => rw [hst] at h2; simp at h2

/-- Master lemma: running any trace without redelivery from an invariant
state keeps every observable state invariant, and for every job the status
column follows only the specified transition edges while completed_at is
written at most once. -/
theorem traceMaster (tr : List Event) : ∀ (d : Db),
    goodFrom d tr = true → dbInv d →
    (∀ x ∈ d :: obsTrace d tr, dbInv x) ∧
    (∀ j, List.Chain' stepOK ((d :: obsTrace d tr).map (fun x => statusOf x j)) ∧
          List.Chain' caStep ((d :: obsTrace d tr).map (fun x => caOf x j))) := by
  induction tr with
  | nil =>
    intro d _ hinv
    constructor
    · intro x hx
      have : x = d := by simpa [obsTrace] using hx
      rw [this]
      exact hinv
    · intro j
      exact ⟨List.chain'_singleton _, List.chain'_singleton _⟩
  | cons e es ih =>
    intro d hgood hinv
    rw [goodFrom_cons, Bool.and_eq_true] at hgood
    obtain ⟨hpre, hgood2⟩ := hgood
    cases e with
    | submit j0 fn q c =>
      have hfresh : findJob d j0 = none := by
        have : (findJob d j0).isNone = true := hpre
        exact Option.isNone_iff_eq_none.mp this
      have hstep := stepEvent_submit_eq d j0 fn q c hfresh
      rw [hstep] at hgood2
      set q2 := if q == "" then defaultQuery else q with hq2
      have hinvD : dbInv (subState d j0 fn q2) :=
        subState_dbInv d j0 fn q2 hinv hfresh
      obtain ⟨ihInv, ihChain⟩ := ih (subState d j0 fn q2) hgood2 hinvD
      rw [obsTrace_cons, hstep]
      simp only [List.singleton_append]
      constructor
      · intro x hx
        rcases List.mem_cons.mp hx with rfl | hx
        · exact hinv
        · exact ihInv x hx
      · intro j
        constructor
        · rw [List.map_cons]
          apply List.chain'_cons.mpr
          refine ⟨?_, (ihChain j).1⟩
          by_cases hj : j = j0
          · subst hj
            right; left
            exact ⟨statusOf_none hfresh, subState_statusOf_self d j fn q2 hfresh⟩
          · left
            exact statusOf_congr (subState_findJob_other d j0 fn q2 j hj)
        · rw [List.map_cons]
          apply List.chain'_cons.mpr
          refine ⟨?_, (ihChain j).2⟩
          by_cases hj : j = j0
          · subst hj
            left
            exact (subState_caOf_self d j fn q2 hfresh).trans (caOf_none hfresh).symm
          · left
            exact caOf_congr (subState_findJob_other d j0 fn q2 j hj)
    | exec j0 q fn out =>
      have hp : statusOf d j0 = some .pending := preOK_exec hpre
      obtain ⟨r0, hpres, hid0, hst0, hca0, hem0, hnores⟩ := pending_facts d j0 hinv hp
      have hinv1 : dbInv (execState1 d j0) := execState1_dbInv d j0 hinv hp
      have hedge1 : ∀ j, stepOK (statusOf d j) (statusOf (execState1 d j0) j) := by
        intro j
        by_cases hj : j = j0
        · subst hj
          right; right; left
          exact ⟨hp, execState1_statusOf_self d j hpres⟩
        · left
          exact statusOf_congr (execState1_findJob_other d j0 j hj)
      have hcedge1 : ∀ j, caStep (caOf d j) (caOf (execState1 d j0) j) := by
        intro j
        by_cases hj : j = j0
        · subst hj
          left
          exact (execState1_caOf_self d j hpres hca0).trans
            (((caOf_eq hpres).trans hca0).symm)
        · left
          exact caOf_congr (execState1_findJob_other d j0 j hj)
      cases out with
      | hardKill =>
        have hstep : stepEvent d (.exec j0 q fn .hardKill)
            = (execState1 d j0, [execState1 d j0]) := by
          rw [stepEvent_exec_eq]
          exact workerExec_hardKill_eq d j0 (file_path j0) q fn none none hpres
        rw [hstep] at hgood2
        obtain ⟨ihInv, ihChain⟩ := ih (execState1 d j0) hgood2 hinv1
        rw [obsTrace_cons, hstep]
        simp only [List.singleton_append]
        constructor
        · intro x hx
          rcases List.mem_cons.mp hx with rfl | hx
          · exact hinv
          · exact ihInv x hx
        · intro j
          constructor
          · rw [List.map_cons]
            exact List.chain'_cons.mpr ⟨hedge1 j, (ihChain j).1⟩
          · rw [List.map_cons]
            exact List.chain'_cons.mpr ⟨hcedge1 j, (ihChain j).2⟩
      | ok text =>
        have hstep : stepEvent d (.exec j0 q fn (.ok text))
            = (execOk2 d j0 q fn text (file_path j0) none none,
               [execState1 d j0, execOk2 d j0 q fn text (file_path j0) none none]) := by
          rw [stepEvent_exec_eq]
          exact workerExec_ok_eq d j0 (file_path j0) q fn text none none hpres hnores
        rw [hstep] at hgood2
        have hinv2 : dbInv (execOk2 d j0 q fn text (file_path j0) none none) :=
          execOk2_dbInv d j0 q fn text (file_path j0) none none hinv hp
        obtain ⟨ihInv, ihChain⟩ :=
          ih (execOk2 d j0 q fn text (file_path j0) none none) hgood2 hinv2
        rw [obsTrace_cons, hstep]
        simp only [List.cons_append, List.singleton_append]
        constructor
        · intro x hx
          rcases List.mem_cons.mp hx with rfl | hx
          · exact hinv
          rcases List.mem_cons.mp hx with rfl | hx
          · exact hinv1
          · exact ihInv x hx
        · intro j
          constructor
          · rw [List.map_cons, List.map_cons]
            apply List.chain'_cons.mpr
            refine ⟨hedge1 j, ?_⟩
            apply List.chain'_cons.mpr
            refine ⟨?_, (ihChain j).1⟩
            by_cases hj : j = j0
            · subst hj
              right; right; right; left
              refine ⟨execState1_statusOf_self d j hpres, ?_⟩
              exact execOk2_statusOf_self d j q fn text (file_path j) none none hpres
            · left
              exact statusOf_congr ((execOk2_findJob_other d j0 q fn text
                (file_path j0) none none j hj).trans
                (execState1_findJob_other d j0 j hj).symm)
          · rw [List.map_cons, List.map_cons]
            apply List.chain'_cons.mpr
            refine ⟨hcedge1 j, ?_⟩
            apply List.chain'_cons.mpr
            refine ⟨?_, (ihChain j).2⟩
            by_cases hj : j = j0
            · subst hj
              right
              exact execState1_caOf_self d j hpres hca0
            · left
              exact caOf_congr ((execOk2_findJob_other d j0 q fn text
                (file_path j0) none none j hj).trans
                (execState1_findJob_other d j0 j hj).symm)
      | exc k msg =>
        have hstep : stepEvent d (.exec j0 q fn (.exc k msg))
            = (execExc2 d j0 q (file_path j0) msg none none,
               [execState1 d j0, execExc2 d j0 q (file_path j0) msg none none]) := by
          rw [stepEvent_exec_eq]
          exact workerExec_exc_eq d j0 (file_path j0) q fn msg k none none hpres
        rw [hstep] at hgood2
        have hinv2 : dbInv (execExc2 d j0 q (file_path j0) msg none none) :=
          execExc2_dbInv d j0 q (file_path j0) msg none none hinv hp
        obtain ⟨ihInv, ihChain⟩ :=
          ih (execExc2 d j0 q (file_path j0) msg none none) hgood2 hinv2
        rw [obsTrace_cons, hstep]
        simp only [List.cons_append, List.singleton_append]
        constructor
        · intro x hx
          rcases List.mem_cons.mp hx with rfl | hx
          · exact hinv
          rcases List.mem_cons.mp hx with rfl | hx
          · exact hinv1
          · exact ihInv x hx
        · intro j
          constructor
          · rw [List.map_cons, List.map_cons]
            apply List.chain'_cons.mpr
            refine ⟨hedge1 j, ?_⟩
            apply List.chain'_cons.mpr
            refine ⟨?_, (ihChain j).1⟩
            by_cases hj : j = j0
            · subst hj
              right; right; right; right
              refine ⟨execState1_statusOf_self d j hpres, ?_⟩
              exact execExc2_statusOf_self d j q (file_path j) msg none none hpres
            · left
              exact statusOf_congr ((execExc2_findJob_other d j0 q
                (file_path j0) msg none none j hj).trans
                (execState1_findJob_other d j0 j hj).symm)
          · rw [List.map_cons, List.map_cons]
            apply List.chain'_cons.mpr
            refine ⟨hcedge1 j, ?_⟩
            apply List.chain'_cons.mpr
            refine ⟨?_, (ihChain j).2⟩
            by_cases hj : j = j0
            · subst hj
              right
              exact execState1_caOf_self d j hpres hca0
            · left
              exact caOf_congr ((execExc2_findJob_other d j0 q
                (file_path j0) msg none none j hj).trans
                (execState1_findJob_other d j0 j hj).symm)

/-! Helper lemmas for the endpoint contracts. -/

theorem resultIff_iff (d : Db) (hR : resultIffCompleted d) (j : String) :
    hasResult d j = true ↔ statusOf d j = some .completed := by
  constructor
  · intro h
    obtain ⟨r, hr, hrj⟩ := List.any_eq_true.mp h
    have hc := hR.1 r hr
    rwa [show r.job_id = j from by simpa using hrj] at hc
  · intro h
    cases hf : findJob d j with
    | none =>
      unfold statusOf at h
      rw [hf] at h
      simp at h
    | some r =>
      have hst : r.status = .completed := by
        unfold statusOf at h
        rw [hf] at h
        simpa using h
      have := hR.2 r (mem_of_findJob d hf) hst
      rwa [findJob_id hf] at this

theorem findResult_none_iff (d : Db) (j : String) :
    findResult d j = none ↔ hasResult d j = false := by
  unfold findResult
  rw [List.find?_eq_none, hasResult_false_iff]
  constructor
  · intro h r hr hrj
    exact h r hr (by simpa using hrj)
  · intro h r hr hb
    exact h r hr (by simpa using hb)

theorem findResult_some_of_hasResult {d : Db} {j : String}
    (h : hasResult d j = true) : ∃ r, findResult d j = some r := by
  cases hr : findResult d j with
  | some r => exact ⟨r, rfl⟩
  | none =>
    rw [findResult_none_iff] at hr
    rw [h] at hr
    cases hr

theorem eraseFile_files_self (d : Db) (p : String) :
    (eraseFile d p).files p = false := by
  simp [eraseFile]

/-! Claim theorems. -/

/-- Claim C1, counterexample: when the dispatch message of an already
completed job is redelivered, the observable status sequence of job j is
pending, processing, completed, processing — the worker unconditionally
rewrites the status to processing, so a completed job regresses, which the
claimed state machine forbids (completed to processing is not an allowed
step). -/
theorem c1_counterexample :
    (observations redeliveryTrace).map (fun d => statusOf d "j")
      = [none, some .pending, some .processing, some .completed,
         some .processing] ∧
    ¬ stepOK (some .completed) (some .processing) := by
  constructor
  · decide
  · decide

/-- Claim C1 (amended): over every sequence of submissions and worker
executions in which no dispatch message is redelivered — each execution
finds its job still pending — the status of every job moves only along
none to pending (row creation), pending to processing, and processing to
completed or failed, never regressing; completed_at is written at most
once; and in every observable state completed_at is set exactly on the
terminal statuses while error_message is set exactly on failed. -/
theorem c1_amended (tr : List Event) (h : goodFrom emptyDb tr = true)
    (j : String) :
    List.Chain' stepOK ((observations tr).map (fun d => statusOf d j)) ∧
    List.Chain' caStep ((observations tr).map (fun d => caOf d j)) ∧
    ∀ d ∈ observations tr, fieldInv d := by
  have hm := traceMaster tr emptyDb h (by decide)
  refine ⟨(hm.2 j).1, (hm.2 j).2, ?_⟩
  intro d hd
  exact (hm.1 d hd).2.1

/-- Witness for c1_amended at the concrete trace okTrace. -/
theorem c1_amended_witness :
    goodFrom emptyDb okTrace = true ∧
    (List.Chain' stepOK ((observations okTrace).map (fun d => statusOf d "j")) ∧
     List.Chain' caStep ((observations okTrace).map (fun d => caOf d "j")) ∧
     ∀ d ∈ observations okTrace, fieldInv d) :=
  ⟨by decide, c1_amended okTrace (by decide) "j"⟩

/-- Claim C2, counterexample: after the second (redelivered) execution of
the dispatch message of job j resolves, a result row for j exists while
the job row reads processing, violating the claimed
Result-iff-status-completed equivalence in the final observable state. -/
theorem c2_counterexample :
    statusOf (runTrace redeliveryTrace) "j" = some .processing ∧
    hasResult (runTrace redeliveryTrace) "j" = true ∧
    ¬ resultIffCompleted (runTrace redeliveryTrace) := by
  refine ⟨by decide, by decide, by decide⟩

/-- Claim C2 (amended): over every sequence of submissions and worker
executions without message redelivery, in every observable state — in
particular after each worker attempt resolves — a result row for a job
exists if and only if that job reads completed. -/
theorem c2_amended (tr : List Event) (h : goodFrom emptyDb tr = true)
    (d : Db) (hd : d ∈ observations tr) (j : String) :
    hasResult d j = true ↔ statusOf d j = some .completed := by
  have hm := traceMaster tr emptyDb h (by decide)
  exact resultIff_iff d (hm.1 d hd).2.2 j

/-- Witness for c2_amended at the completed state of okTrace. -/
theorem c2_amended_witness :
    goodFrom emptyDb okTrace = true ∧
    (hasResult ((observations okTrace).get ⟨3, by decide⟩) "j" = true ↔
     statusOf ((observations okTrace).get ⟨3, by decide⟩) "j"
       = some .completed) :=
  ⟨by decide,
   c2_amended okTrace (by decide) ((observations okTrace).get ⟨3, by decide⟩)
     (List.get_mem _ 3 (by decide)) "j"⟩

/-- Claim C3, counterexample: executing the worker task a second time for
a job whose first execution completed is not a no-op — the task first
overwrites the completed status with processing (and the failed duplicate
insert then aborts the attempt there), so the status does not remain
completed. -/
theorem c3_counterexample :
    statusOf completedDb "j" = some .completed ∧
    statusOf (workerExec completedDb "j" (file_path "j") "q" "f.pdf"
        none none (.ok "A")).1 "j" = some .processing := by
  refine ⟨by decide, by decide⟩

/-- Claim C3 (amended): re-executing the worker task for a completed job
rejects the duplicate result write (the stored results are unchanged) and
writes no additional activity record of any kind, but it is not a no-op:
the job status is overwritten from completed to processing and the failed
final commit leaves it there. -/
theorem c3_amended (d : Db) (j q fn text : String) (uip : Option String)
    (fs : Option Nat) (hinv : dbInv d) (hc : statusOf d j = some .completed) :
    (workerExec d j (file_path j) q fn uip fs (.ok text)).1.results
      = d.results ∧
    (workerExec d j (file_path j) q fn uip fs (.ok text)).1.activities
      = d.activities ∧
    statusOf (workerExec d j (file_path j) q fn uip fs (.ok text)).1 j
      = some .processing := by
  obtain ⟨r0, hpres, hid0, hst0, hres⟩ := completed_facts d j hinv hc
  rw [workerExec_ok_dup_eq d j (file_path j) q fn text uip fs hpres hres]
  exact ⟨rfl, rfl, execState1_statusOf_self d j hpres⟩

/-- Witness for c3_amended at the completed state of okTrace. -/
theorem c3_amended_witness :
    dbInv completedDb ∧ statusOf completedDb "j" = some .completed ∧
    ((workerExec completedDb "j" (file_path "j") "q" "f.pdf" none none
        (.ok "A")).1.results = completedDb.results ∧
     (workerExec completedDb "j" (file_path "j") "q" "f.pdf" none none
        (.ok "A")).1.activities = completedDb.activities ∧
     statusOf (workerExec completedDb "j" (file_path "j") "q" "f.pdf"
        none none (.ok "A")).1 "j" = some .processing) :=
  ⟨by decide, by decide,
   c3_amended completedDb "j" "q" "f.pdf" "A" none none (by decide) (by decide)⟩

/-- Claim C4, counterexample: when enqueueing the dispatch message fails
after the job row was created, the submission aborts with an error and no
message is dispatched, yet the job row is left behind with status pending —
it is neither deleted nor marked failed. -/
theorem c4_counterexample :
    isOk (submitAsync emptyDb "j" "f.pdf" "q" "c" none false).response
      = false ∧
    (submitAsync emptyDb "j" "f.pdf" "q" "c" none false).message = none ∧
    statusOf (submitAsync emptyDb "j" "f.pdf" "q" "c" none false).db "j"
      = some .pending := by
  refine ⟨by decide, by decide, by decide⟩

/-- Claim C4 (amended): on the async path, if enqueueing the dispatch
message fails after the job row was created, the submission aborts with a
500 error, no message is dispatched, and the uploaded file is removed, but
the job row is not compensated: it remains in the store with status
pending. -/
theorem c4_amended (d : Db) (j fn q c : String) (uip : Option String)
    (hfresh : findJob d j = none) :
    (submitAsync d j fn q c uip false).response
      = .error ⟨500, errSubmitDetail⟩ ∧
    (submitAsync d j fn q c uip false).message = none ∧
    statusOf (submitAsync d j fn q c uip false).db j = some .pending ∧
    (submitAsync d j fn q c uip false).db.files (file_path j) = false := by
  have he : submitAsync d j fn q c uip false =
      { response := .error ⟨500, errSubmitDetail⟩
        db := eraseFile (tick (addRequest (writeFile d (file_path j))
          (subRow d j fn (if q == "" then defaultQuery else q)))) (file_path j)
        message := none } := by
    unfold submitAsync subRow
    simp [hfresh]
  rw [he]
  refine ⟨rfl, rfl, ?_, ?_⟩
  · unfold statusOf
    rw [findJob_eraseFile, findJob_tick, findJob_addRequest_eq,
      findJob_writeFile, hfresh]
    simp [subRow]
  · exact eraseFile_files_self _ _

/-- Witness for c4_amended on the empty store. -/
theorem c4_amended_witness :
    findJob emptyDb "j" = none ∧
    ((submitAsync emptyDb "j" "f.pdf" "q" "c" none false).response
       = .error ⟨500, errSubmitDetail⟩ ∧
     (submitAsync emptyDb "j" "f.pdf" "q" "c" none false).message = none ∧
     statusOf (submitAsync emptyDb "j" "f.pdf" "q" "c" none false).db "j"
       = some .pending ∧
     (submitAsync emptyDb "j" "f.pdf" "q" "c" none false).db.files
        (file_path "j") = false) :=
  ⟨by decide, c4_amended emptyDb "j" "f.pdf" "q" "c" none (by decide)⟩

/-- Claim C5, counterexample: submitting an empty upload does not fail
with a validation error — the submission is accepted and a pending job
row is created for it. -/
theorem c5_counterexample :
    isOk (submitAsync emptyDb "j" "f.pdf" "q" "" none true).response
      = true ∧
    statusOf (submitAsync emptyDb "j" "f.pdf" "q" "" none true).db "j"
      = some .pending := by
  refine ⟨by decide, by decide⟩

/-- Claim C5 (amended): the submit operation performs no emptiness check —
an upload of any content, including empty content, is accepted — and a
blank query is replaced by the standard default prompt both in the stored
job row and in the dispatched message. -/
theorem c5_amended (d : Db) (j fn c : String) (uip : Option String)
    (hfresh : findJob d j = none) :
    isOk (submitAsync d j fn "" c uip true).response = true ∧
    ((findJob (submitAsync d j fn "" c uip true).db j).map
        (fun r => r.query)) = some defaultQuery ∧
    ((submitAsync d j fn "" c uip true).message.map (fun m => m.query))
      = some defaultQuery := by
  have he : submitAsync d j fn "" c uip true =
      { response := .ok
          { status := "submitted", job_id := j
            message := "Document submitted for analysis. Use /status/\x7bjob_id\x7d to check progress."
            filename := fn, query := defaultQuery }
        db := subState d j fn defaultQuery
        message := some
          { job_id := j, fpath := file_path j, query := pyStrip defaultQuery
            filename := fn, user_ip := uip, file_size := c.length } } := by
    unfold submitAsync subState subRow
    simp [hfresh]
  rw [he]
  refine ⟨rfl, ?_, ?_⟩
  · rw [subState_findJob_self d j fn defaultQuery hfresh]
    simp [subRow]
  · have hs : pyStrip defaultQuery = defaultQuery := by decide
    simp [hs]

/-- Witness for c5_amended on the empty store with an empty upload. -/
theorem c5_amended_witness :
    findJob emptyDb "j" = none ∧
    (isOk (submitAsync emptyDb "j" "f.pdf" "" "" none true).response = true ∧
     ((findJob (submitAsync emptyDb "j" "f.pdf" "" "" none true).db "j").map
        (fun r => r.query)) = some defaultQuery ∧
     ((submitAsync emptyDb "j" "f.pdf" "" "" none true).message.map
        (fun m => m.query)) = some defaultQuery) :=
  ⟨by decide, c5_amended emptyDb "j" "f.pdf" "" none (by decide)⟩

/-- Claim C6, counterexample: a hard-deadline expiry kills the attempt
before any handler runs, so the job is left in processing with no error
message instead of being recorded as failed; and a soft-timeout exception
and an analyzer runtime error carrying the same exception text are handled
by the same generic handler and store the same error_message, so the two
failure kinds are not distinguishable from the stored error_message. -/
theorem c6_counterexample :
    statusOf (runTrace hardKillTrace) "j" = some .processing ∧
    emOf (runTrace hardKillTrace) "j" = none ∧
    emOf (workerExec (runTrace [.submit "j" "f.pdf" "q" "c"]) "j"
        (file_path "j") "q" "f.pdf" none none (.exc .softTimeout "boom")).1 "j"
      = emOf (workerExec (runTrace [.submit "j" "f.pdf" "q" "c"]) "j"
        (file_path "j") "q" "f.pdf" none none
          (.exc .analyzerError "boom")).1 "j" := by
  refine ⟨by decide, by decide, by decide⟩

/-- Claim C6 (amended): the analyzer invocation is bounded by the
configured hard limit of 600 seconds and soft limit of 540 seconds; a
soft-deadline expiry surfaces as an exception that the single generic
handler records as a failed job with error_message equal to the exception
text, exactly as it records an analyzer runtime error (the handler does
not depend on the exception kind); a hard-deadline expiry kills the
attempt, leaving the job in processing with no error message recorded. -/
theorem c6_amended (d : Db) (j q fn msg : String) (uip : Option String)
    (fs : Option Nat) (hinv : dbInv d) (hp : statusOf d j = some .pending) :
    task_time_limit = 600 ∧ task_soft_time_limit = 540 ∧
    statusOf (workerExec d j (file_path j) q fn uip fs
        (.exc .softTimeout msg)).1 j = some .failed ∧
    emOf (workerExec d j (file_path j) q fn uip fs
        (.exc .softTimeout msg)).1 j = some msg ∧
    workerExec d j (file_path j) q fn uip fs (.exc .softTimeout msg)
      = workerExec d j (file_path j) q fn uip fs (.exc .analyzerError msg) ∧
    statusOf (workerExec d j (file_path j) q fn uip fs .hardKill).1 j
      = some .processing ∧
    emOf (workerExec d j (file_path j) q fn uip fs .hardKill).1 j = none := by
  obtain ⟨r0, hpres, hid0, hst0, hca0, hem0, hnores⟩ := pending_facts d j hinv hp
  refine ⟨rfl, rfl, ?_, ?_, ?_, ?_, ?_⟩
  · rw [workerExec_exc_eq d j (file_path j) q fn msg .softTimeout uip fs hpres]
    exact execExc2_statusOf_self d j q (file_path j) msg uip fs hpres
  · rw [workerExec_exc_eq d j (file_path j) q fn msg .softTimeout uip fs hpres]
    exact execExc2_emOf_self d j q (file_path j) msg uip fs hpres
  · exact (workerExec_exc_eq d j (file_path j) q fn msg .softTimeout uip fs
      hpres).trans
      (workerExec_exc_eq d j (file_path j) q fn msg .analyzerError uip fs
        hpres).symm
  · rw [workerExec_hardKill_eq d j (file_path j) q fn uip fs hpres]
    exact execState1_statusOf_self d j hpres
  · rw [workerExec_hardKill_eq d j (file_path j) q fn uip fs hpres]
    exact execState1_emOf_self d j hpres hem0

/-- Witness for c6_amended on a freshly submitted job. -/
theorem c6_amended_witness :
    dbInv (runTrace [.submit "j" "f.pdf" "q" "c"]) ∧
    statusOf (runTrace [.submit "j" "f.pdf" "q" "c"]) "j" = some .pending ∧
    (task_time_limit = 600 ∧ task_soft_time_limit = 540 ∧
     statusOf (workerExec (runTrace [.submit "j" "f.pdf" "q" "c"]) "j"
        (file_path "j") "q" "f.pdf" none none (.exc .softTimeout "m")).1 "j"
       = some .failed ∧
     emOf (workerExec (runTrace [.submit "j" "f.pdf" "q" "c"]) "j"
        (file_path "j") "q" "f.pdf" none none (.exc .softTimeout "m")).1 "j"
       = some "m" ∧
     workerExec (runTrace [.submit "j" "f.pdf" "q" "c"]) "j" (file_path "j")
        "q" "f.pdf" none none (.exc .softTimeout "m")
       = workerExec (runTrace [.submit "j" "f.pdf" "q" "c"]) "j"
          (file_path "j") "q" "f.pdf" none none (.exc .analyzerError "m") ∧
     statusOf (workerExec (runTrace [.submit "j" "f.pdf" "q" "c"]) "j"
        (file_path "j") "q" "f.pdf" none none .hardKill).1 "j"
       = some .processing ∧
     emOf (workerExec (runTrace [.submit "j" "f.pdf" "q" "c"]) "j"
        (file_path "j") "q" "f.pdf" none none .hardKill).1 "j" = none) :=
  ⟨by decide, by decide,
   c6_amended (runTrace [.submit "j" "f.pdf" "q" "c"]) "j" "q" "f.pdf" "m"
     none none (by decide) (by decide)⟩

/-- Claim C7: under the data-model invariants, GET /result returns the
stored result fields when the job completed, a 202 error when the job is
pending or processing, a 500 error carrying the stored error message when
the job failed, and a 404 error when no job with that id ever existed. -/
theorem c7_result_contract (d : Db) (j : String) (hinv : dbInv d) :
    resultContract d j := by
  obtain ⟨hU, hF, hR⟩ := hinv
  have hiff := resultIff_iff d hR j
  refine ⟨?_, ?_, ?_, ?_⟩
  · intro hc
    obtain ⟨r, hr⟩ := findResult_some_of_hasResult (hiff.mpr hc)
    refine ⟨r, hr, ?_⟩
    unfold get_job_result
    rw [hr]
  · intro hpp
    have hnres : hasResult d j = false := by
      cases hb : hasResult d j
      · rfl
      · exfalso
        have hcb := hiff.mp hb
        rcases hpp with h1 | h1 <;> rw [h1] at hcb <;> simp at hcb
    have hfr : findResult d j = none := (findResult_none_iff d j).mpr hnres
    cases hst : findJob d j with
    | none =>
      exfalso
      unfold statusOf at hpp
      rw [hst] at hpp
      rcases hpp with h1 | h1 <;> simp at h1
    | some req =>
      have hreq : req.status = .pending ∨ req.status = .processing := by
        unfold statusOf at hpp
        rw [hst] at hpp
        rcases hpp with h1 | h1
        · left
          simpa using h1
        · right
          simpa using h1
      have hgr : get_job_result d j =
          (if req.status = .pending ∨ req.status = .processing then
            .error ⟨202, "Analysis not yet complete. Current status: "
              ++ statusText req.status⟩
          else if req.status = .failed then
            .error ⟨500, "Analysis failed: " ++ req.error_message.getD "None"⟩
          else .error ⟨404, "Result not found"⟩) := by
        unfold get_job_result
        rw [hfr, hst]
      rw [hgr, if_pos hreq]
      exact ⟨_, rfl, rfl⟩
  · intro hf
    have hnres : hasResult d j = false := by
      cases hb : hasResult d j
      · rfl
      · exfalso
        have hcb := hiff.mp hb
        rw [hf] at hcb
        simp at hcb
    have hfr : findResult d j = none := (findResult_none_iff d j).mpr hnres
    cases hst : findJob d j with
    | none =>
      exfalso
      unfold statusOf at hf
      rw [hst] at hf
      simp at hf
    | some req =>
      have hreqf : req.status = .failed := by
        unfold statusOf at hf
        rw [hst] at hf
        simpa using hf
      have hnp : ¬(req.status = .pending ∨ req.status = .processing) := by
        rw [hreqf]
        rintro (h1 | h1) <;> cases h1
      have hgr : get_job_result d j =
          (if req.status = .pending ∨ req.status = .processing then
            .error ⟨202, "Analysis not yet complete. Current status: "
              ++ statusText req.status⟩
          else if req.status = .failed then
            .error ⟨500, "Analysis failed: " ++ req.error_message.getD "None"⟩
          else .error ⟨404, "Result not found"⟩) := by
        unfold get_job_result
        rw [hfr, hst]
      rw [hgr, if_neg hnp, if_pos hreqf]
      have hem : emOf d j = req.error_message := by
        unfold emOf
        rw [hst]
      rw [hem]
  · intro hn
    have hnres : hasResult d j = false := by
      cases hb : hasResult d j
      · rfl
      · exfalso
        have hcb := hiff.mp hb
        rw [hn] at hcb
        cases hcb
    have hfr : findResult d j = none := (findResult_none_iff d j).mpr hnres
    have hst : findJob d j = none := by
      cases hj : findJob d j with
      | none => rfl
      | some r =>
        exfalso
        unfold statusOf at hn
        rw [hj] at hn
        simp at hn
    unfold get_job_result
    rw [hfr, hst]

/-- Witness for c7_result_contract at the completed state of okTrace. -/
theorem c7_result_contract_witness :
    dbInv completedDb ∧ resultContract completedDb "j" :=
  ⟨by decide, c7_result_contract completedDb "j" (by decide)⟩

/-- Claim C8, counterexample: an out-of-range limit is not brought into
the range 1..100 — the request is rejected with a 422 validation error
instead of returning a clamped page. -/
theorem c8_counterexample :
    get_analysis_history db15 0 0 = .error ⟨422, validationDetail⟩ ∧
    get_analysis_history db15 101 0 = .error ⟨422, validationDetail⟩ := by
  refine ⟨by decide, by decide⟩

/-- Claim C8 (amended): limit outside 1..100 or negative offset is
rejected with a 422 validation error rather than clamped; in range, the
history is ordered newest first, and with 15 stored results limit 10
offset 0 yields the 10 newest, limit 10 offset 10 yields the remaining 5,
with total reporting 15 in both calls. -/
theorem c8_amended (d : Db) (limit offset : Int)
    (h : limit < 1 ∨ 100 < limit ∨ offset < 0) :
    get_analysis_history d limit offset = .error ⟨422, validationDetail⟩ ∧
    get_analysis_history db15 10 0
      = .ok { total := 15, limit := 10, offset := 0
              results := (List.range 10).map (fun k => histItem (15 - k)) } ∧
    get_analysis_history db15 10 10
      = .ok { total := 15, limit := 10, offset := 10
              results := (List.range 5).map (fun k => histItem (5 - k)) } := by
  refine ⟨?_, by decide, by decide⟩
  unfold get_analysis_history
  rw [if_pos h]

/-- Witness for c8_amended at limit zero. -/
theorem c8_amended_witness :
    ((0 : Int) < 1 ∨ (100 : Int) < 0 ∨ (0 : Int) < 0) ∧
    (get_analysis_history emptyDb 0 0 = .error ⟨422, validationDetail⟩ ∧
     get_analysis_history db15 10 0
       = .ok { total := 15, limit := 10, offset := 0
               results := (List.range 10).map (fun k => histItem (15 - k)) } ∧
     get_analysis_history db15 10 10
       = .ok { total := 15, limit := 10, offset := 10
               results := (List.range 5).map (fun k => histItem (5 - k)) }) :=
  ⟨by decide, c8_amended emptyDb 0 0 (by decide)⟩

/-- Claim C9, counterexample: a hard-deadline kill ends the attempt after
the job was claimed, and the uploaded input file is still present
afterwards — deletion does not happen on that exit path. -/
theorem c9_counterexample :
    statusOf (runTrace hardKillTrace) "j" = some .processing ∧
    (runTrace hardKillTrace).files (file_path "j") = true := by
  refine ⟨by decide, by decide⟩

/-- Claim C9 (amended): the uploaded input file is deleted on the exit
paths the task handlers actually run — a successful attempt whose result
commit succeeds, and a caught exception whose failure record commits — but
not when the attempt is killed by the hard time limit, and not when the
final commit fails on a duplicate result. -/
theorem c9_amended (d : Db) (j q fn text msg : String) (k : ExcKind)
    (uip : Option String) (fs : Option Nat) :
    (hasResult d j = false →
      (workerExec d j (file_path j) q fn uip fs (.ok text)).1.files
          (file_path j) = false) ∧
    (workerExec d j (file_path j) q fn uip fs (.exc k msg)).1.files
        (file_path j) = false := by
  constructor
  · intro hnores
    cases hpres : findJob d j with
    | some r0 =>
      rw [workerExec_ok_eq d j (file_path j) q fn text uip fs hpres hnores]
      exact eraseFile_files_self _ _
    | none =>
      unfold workerExec
      rw [hpres]
      have h1 : hasResult d j = false := hnores
      simp [h1, eraseFile]
  · cases hpres : findJob d j with
    | some r0 =>
      rw [workerExec_exc_eq d j (file_path j) q fn msg k uip fs hpres]
      exact eraseFile_files_self _ _
    | none =>
      unfold workerExec
      rw [hpres]
      simp [eraseFile]

/-- Witness for c9_amended on the empty store. -/
theorem c9_amended_witness :
    hasResult emptyDb "j" = false ∧
    ((workerExec emptyDb "j" (file_path "j") "q" "f.pdf" none none
        (.ok "A")).1.files (file_path "j") = false ∧
     (workerExec emptyDb "j" (file_path "j") "q" "f.pdf" none none
        (.exc .analyzerError "m")).1.files (file_path "j") = false) :=
  ⟨by decide,
   ⟨(c9_amended emptyDb "j" "q" "f.pdf" "A" "m" .analyzerError none none).1
      (by decide),
    (c9_amended emptyDb "j" "q" "f.pdf" "A" "m" .analyzerError none none).2⟩⟩

/-- Claim C10: the stats operation is total over every store state — with
no activity records the success rate is 0 rather than a division error,
and with no results the average processing time is null rather than an
error. -/
theorem c10_stats_total (d : Db) :
    (d.activities = [] →
      (get_statistics d).success_rate_percentage = 0) ∧
    (d.results = [] →
      (get_statistics d).average_processing_time_seconds = none) := by
  constructor
  · intro h
    unfold get_statistics
    simp [h, round2]
  · intro h
    unfold get_statistics
    simp [h]

/-- Witness for c10_stats_total on the empty store. -/
theorem c10_stats_total_witness :
    (get_statistics emptyDb).success_rate_percentage = 0 ∧
    (get_statistics emptyDb).average_processing_time_seconds = none :=
  ⟨(c10_stats_total emptyDb).1 rfl, (c10_stats_total emptyDb).2 rfl⟩

end FinAnalyzer
